import Mathlib

/-!
Verification development for the spreadsheet-eval repository
(src/csvManipulation.js).

The JavaScript source is shallowly embedded below:
  * JS numbers appearing in this program are integers or NaN (`JSNum`);
    sums never leave that fragment, so `Int` with a NaN marker is exact.
  * The JS `Set` of visited cell values is a `Finset (Option String)`
    (cells fetched past the end of a row are `undefined`, modelled `none`);
    mutation is made explicit by returning the updated set.
  * `evaluateCell`'s recursion is embedded with explicit fuel (`evalF`);
    `Outcome.outOfFuel` marks fuel exhaustion and is proved unreachable
    for the canonical fuel `stdFuel`.  A JS `TypeError` (indexing a row
    that does not exist) is the explicit `Outcome.thrown`.
  * `console.error` diagnostics are reflected in the `ErrKind` carried by
    `Outcome.err`; the JS return value is the string "#ERR" exactly when
    the outcome is `Outcome.err _`.
  * String splitting (`split(',')`, `split(' ')`, `split('\r\n')`),
    `trim`, `replace(/\s+/g,' ')`, `parseInt` and `isNaN(Number(...))`
    are modelled character-exactly for whitespace in the ASCII range that
    `Char.isWhitespace` recognises.
-/

namespace SpreadsheetEval

/-- JS numbers as they occur in this program: an exact integer or NaN. -/
inductive JSNum where
  | int (n : Int)
  | nan
deriving DecidableEq

/-- JS `+` on the numbers occurring here; NaN is absorbing. -/
def jsAdd : JSNum → JSNum → JSNum
  | .int a, .int b => .int (a + b)
  | _, _ => .nan

/-- JS `x - 1` on `JSNum`. -/
def jsSubOne : JSNum → JSNum
  | .int a => .int (a - 1)
  | .nan => .nan

/-- Which `console.error` diagnostic accompanied an `"#ERR"` return. -/
inductive ErrKind where
  | undefinedCell
  | emptyToken
  | circular
  | outOfBounds
  | invalidFormat
deriving DecidableEq

/-- Result of one `evaluateCell` call.  `err k` is the JS return value
`"#ERR"` together with the diagnostic that was logged; `thrown` is a JS
`TypeError` (row index past the end of the cells array); `outOfFuel` is
the artefact of the fuelled embedding, proved unreachable at `stdFuel`. -/
inductive Outcome where
  | val (x : JSNum)
  | err (k : ErrKind)
  | thrown
  | outOfFuel
deriving DecidableEq

/-- Decimal digit test, `[0-9]`. -/
def isDecDigit (c : Char) : Bool := '0' ≤ c && c ≤ '9'

/-- Hex digit test, `[0-9a-fA-F]`. -/
def isHexDigit (c : Char) : Bool :=
  ('0' ≤ c && c ≤ '9') || ('a' ≤ c && c ≤ 'f') || ('A' ≤ c && c ≤ 'F')

/-- Uppercase letter test, `[A-Z]`. -/
def isUpperAZ (c : Char) : Bool := 'A' ≤ c && c ≤ 'Z'

/-- Value of a decimal digit string (most significant first). -/
def decDigitsVal (l : List Char) : Nat :=
  l.foldl (fun a c => 10 * a + (c.toNat - 48)) 0

/-- Value of one hex digit. -/
def hexDigitVal (c : Char) : Nat :=
  if '0' ≤ c && c ≤ '9' then c.toNat - 48
  else if 'a' ≤ c && c ≤ 'f' then c.toNat - 87
  else c.toNat - 55

/-- Value of a hex digit string (most significant first). -/
def hexDigitsVal (l : List Char) : Nat :=
  l.foldl (fun a c => 16 * a + hexDigitVal c) 0

/-- Character-level `trim`: strip leading and trailing whitespace. -/
def trimChars (l : List Char) : List Char :=
  ((l.dropWhile Char.isWhitespace).reverse.dropWhile Char.isWhitespace).reverse

/-- Model of JS `String.prototype.trim`. -/
def strTrim (s : String) : String := String.mk (trimChars s.toList)

/-- Helper for `collapseWS`: the flag records whether the previous
character was whitespace (so the run has already emitted its space). -/
def collapseWSAux : Bool → List Char → List Char
  | _, [] => []
  | prevWS, c :: rest =>
    if c.isWhitespace then
      if prevWS then collapseWSAux true rest
      else ' ' :: collapseWSAux true rest
    else c :: collapseWSAux false rest

/-- Collapse every whitespace run to a single space,
the `replace(/\s+/g, ' ')` of the source. -/
def collapseWS (l : List Char) : List Char := collapseWSAux false l

/-- The source's `value.trim().replace(/\s+/g, ' ')` normalisation. -/
def normWS (s : String) : String := String.mk (collapseWS (trimChars s.toList))

/-- JS `String.prototype.split` with a one-character separator:
`"".split(sep) = [""]`, empty fields are kept. -/
def splitOnChar (sep : Char) : List Char → List (List Char)
  | [] => [[]]
  | c :: rest =>
    if c = sep then [] :: splitOnChar sep rest
    else
      match splitOnChar sep rest with
      | [] => [[c]]
      | h :: t => (c :: h) :: t

/-- The source's `cell.split(' ')` tokenisation. -/
def splitTokens (s : String) : List String :=
  (splitOnChar ' ' s.toList).map String.mk

/-- The source's `row.split(',')` field splitting. -/
def splitFields (s : String) : List String :=
  (splitOnChar ',' s.toList).map String.mk

/-- JS `csvData.split('\r\n')`: split on the exact two-character CRLF
sequence, keeping empty pieces. -/
def splitCRLF : List Char → List (List Char)
  | [] => [[]]
  | '\r' :: '\n' :: rest => [] :: splitCRLF rest
  | c :: rest =>
    match splitCRLF rest with
    | [] => [[c]]
    | h :: t => (c :: h) :: t

/-- The row list `csvData.trim().split('\r\n')` of `processCSV`. -/
def csvRows (csvData : String) : List String :=
  (splitCRLF (trimChars csvData.toList)).map String.mk

/-- Model of JS `parseInt(s)` (no radix argument) on a character list
that has already been trimmed: optional sign; a `0x`/`0X` prefix selects
hex; otherwise the longest decimal-digit prefix; no digits gives NaN. -/
def jsParseIntChars (cs : List Char) : JSNum :=
  let sc : Int × List Char :=
    match cs with
    | c :: rest => if c = '+' then (1, rest) else if c = '-' then (-1, rest) else (1, cs)
    | [] => (1, cs)
  match sc.2 with
  | c0 :: c1 :: rest =>
    if c0 = '0' ∧ (c1 = 'x' ∨ c1 = 'X') then
      let hs := rest.takeWhile isHexDigit
      if hs = [] then .nan else .int (sc.1 * hexDigitsVal hs)
    else
      let ds := sc.2.takeWhile isDecDigit
      if ds = [] then .nan else .int (sc.1 * decDigitsVal ds)
  | _ =>
    let ds := sc.2.takeWhile isDecDigit
    if ds = [] then .nan else .int (sc.1 * decDigitsVal ds)

/-- Model of JS `parseInt(s)`. -/
def jsParseInt (s : String) : JSNum := jsParseIntChars (trimChars s.toList)

/-- Exponent suffix of a JS decimal numeric literal: empty, or
`[eE][+-]?digits`. -/
def jsExpOk (l : List Char) : Bool :=
  match l with
  | [] => true
  | c :: rest =>
    (c = 'e' || c = 'E') &&
      (match rest with
       | d :: _ =>
         if d = '+' || d = '-' then
           (rest.drop 1) ≠ [] && (rest.drop 1).all isDecDigit
         else rest ≠ [] && rest.all isDecDigit
       | [] => false)

/-- Unsigned part of a JS decimal numeric string:
`digits ('.' digits?)? exp?`, `'.' digits exp?`, or `Infinity`. -/
def jsUnsignedNumeric (cs : List Char) : Bool :=
  if cs = "Infinity".toList then true
  else
    let ip := cs.takeWhile isDecDigit
    let r1 := cs.dropWhile isDecDigit
    if ip = [] then
      match r1 with
      | '.' :: r2 => (r2.takeWhile isDecDigit) ≠ [] && jsExpOk (r2.dropWhile isDecDigit)
      | _ => false
    else
      match r1 with
      | [] => true
      | '.' :: r2 => jsExpOk (r2.dropWhile isDecDigit)
      | _ => jsExpOk r1

/-- Unsigned JS numeric string including the radix-prefixed forms
`0x…`, `0o…`, `0b…` (which do not admit a sign). -/
def jsNumericNoSign (cs : List Char) : Bool :=
  match cs with
  | '0' :: c :: rest =>
    if c = 'x' || c = 'X' then rest ≠ [] && rest.all isHexDigit
    else if c = 'o' || c = 'O' then rest ≠ [] && rest.all (fun d => '0' ≤ d && d ≤ '7')
    else if c = 'b' || c = 'B' then rest ≠ [] && rest.all (fun d => d = '0' || d = '1')
    else jsUnsignedNumeric cs
  | _ => jsUnsignedNumeric cs

/-- Model of JS `isNaN(s)` for a string argument, i.e. whether
`Number(s)` is NaN.  `Number("") = 0`, so the empty (trimmed) string is
not NaN. -/
def jsNumberIsNaN (s : String) : Bool :=
  match trimChars s.toList with
  | [] => false
  | '+' :: r => !(jsUnsignedNumeric r)
  | '-' :: r => !(jsUnsignedNumeric r)
  | cs => !(jsNumericNoSign cs)

/-- One reference atom of the source regex: `[A-Z]+\d{1,2}`. -/
def refTok (t : String) : Bool :=
  let cs := t.toList
  let letters := cs.takeWhile isUpperAZ
  let digits := cs.dropWhile isUpperAZ
  !letters.isEmpty && !digits.isEmpty && digits.length ≤ 2 && digits.all isDecDigit

/-- The source's `cellRefRegex = /^[A-Z]+\d{1,2}( [A-Z]+\d{1,2})*$/`:
the string is one or more space-separated `[A-Z]+\d{1,2}` atoms.
(`evaluateCell` applies it to space-free tokens, where it degenerates to
a single-atom match.) -/
def cellRefRegexTest (s : String) : Bool :=
  let parts := (splitOnChar ' ' s.toList).map String.mk
  !parts.isEmpty && parts.all refTok

/-- `getCellIndices` of the source: column from `charCodeAt(0) - 65`
(NaN on the empty string), row from `parseInt(cellRef.slice(1)) - 1`.
Returned as `[row, col]`, matching the source. -/
def getCellIndices (cellRef : String) : JSNum × JSNum :=
  let col : JSNum :=
    match cellRef.toList with
    | [] => .nan
    | c :: _ => .int ((c.toNat : Int) - 65)
  let row : JSNum := jsSubOne (jsParseInt (String.mk (cellRef.toList.drop 1)))
  (row, col)

/-- The grid of raw cell strings (`initialCells` in the source). -/
abbrev Grid := List (List String)

/-- The visited set: a JS `Set` holding cell values; `none` is the JS
`undefined` fetched from beyond a row's end. -/
abbrev VSet := Finset (Option String)

/-- Total cell count of a grid. -/
def totalCells (g : Grid) : Nat := (g.map List.length).sum

/-- Token loop of `evaluateCell` (the `for (const token of tokens)`
body), parameterised by the recursive evaluator `recur` used to descend
into a referenced cell.  Threads the running sum and the visited set. -/
def goTokens (recur : Option String → VSet → Outcome × VSet)
    (g : Grid) (nR nC : Int) :
    List String → VSet → JSNum → Outcome × VSet
  | [], v, sum => (.val sum, v)
  | t :: ts, v, sum =>
    if trimChars t.toList = [] then (.err .emptyToken, v)
    else if cellRefRegexTest t then
      match getCellIndices t with
      | (.int r, .int c) =>
        if 0 ≤ r ∧ r < nR ∧ 0 ≤ c ∧ c < nC then
          match g.get? r.toNat with
          | none => (.thrown, v)
          | some rowL =>
            let rc : Option String := rowL.get? c.toNat
            if rc ∈ v then (.err .circular, v)
            else
              match recur rc (insert rc v) with
              | (.val x, v2) => goTokens recur g nR nC ts (v2.erase rc) (jsAdd sum x)
              | other => other
        else (.err .outOfBounds, v)
      | _ => (.err .outOfBounds, v)
    else if !(jsNumberIsNaN t) then goTokens recur g nR nC ts v (jsAdd sum (jsParseInt t))
    else (.err .invalidFormat, v)

/-- Fuelled `evaluateCell`: the `cell === undefined` guard, then the
token loop over `cell.split(' ')` with sum 0. -/
def evalF (g : Grid) (nR nC : Int) :
    Nat → Option String → VSet → Outcome × VSet
  | 0, _, v => (.outOfFuel, v)
  | fuel + 1, cell, v =>
    match cell with
    | none => (.err .undefinedCell, v)
    | some c => goTokens (evalF g nR nC fuel) g nR nC (splitTokens c) v (.int 0)

/-- Canonical fuel: strictly more than the number of distinct values a
descent chain can add to the visited set. -/
def stdFuel (g : Grid) : Nat := totalCells g + 2

/-- `evaluateCell(cell, initialCells, visitedCells, numRows, numCols)`
of the source, at the canonical fuel. -/
def evaluateCell (cell : Option String) (initialCells : Grid)
    (visitedCells : VSet) (numRows numCols : Int) : Outcome × VSet :=
  evalF initialCells numRows numCols (stdFuel initialCells) cell visitedCells

/-- Every value a descent can insert into the visited set: `undefined`
plus each cell string of the grid. -/
def allVals (g : Grid) : Finset (Option String) :=
  insert none (g.flatten.map some).toFinset

/-- Fatal errors of a `processCSV` run (thrown JS exceptions):
`invalidDimensions` from `initializeCells`, `inconsistentColumns` from
the per-row field-count re-check, `crashed` for an uncaught `TypeError`
escaping `evaluateCell` (never reached, kept for totality). -/
inductive ProcErr where
  | invalidDimensions
  | inconsistentColumns
  | crashed
deriving DecidableEq

/-- `initializeCells(numRows, numCols)`: guard, then a
`numRows × numCols` grid of empty strings. -/
def initializeCells (numRows numCols : Int) : Except ProcErr Grid :=
  if numRows ≤ 0 ∨ numCols ≤ 0 then .error .invalidDimensions
  else .ok (List.replicate numRows.toNat (List.replicate numCols.toNat ""))

/-- `populateCells(rows, numRows, numCols, initialCells)`: overwrite the
cell at `(row, col)` with the normalised field whenever
`values[col] != undefined`, keep the initial `''` otherwise. -/
def populateCells (rows : List String) (numRows numCols : Nat)
    (initialCells : Grid) : Grid :=
  (List.range numRows).map fun row =>
    let values := splitFields (rows.getD row "")
    (List.range numCols).map fun col =>
      match values.get? col with
      | some s => normWS s
      | none => ((initialCells.getD row []).getD col "")

/-- JS rendering of one evaluated value into the output row:
`String(n)` for a number, `"NaN"` for NaN, the marker `"#ERR"` for an
error.  (`thrown`/`outOfFuel` abort the run before rendering; the value
here is immaterial.) -/
def renderOutcome : Outcome → String
  | .val (.int n) => toString n
  | .val .nan => "NaN"
  | .err _ => "#ERR"
  | .thrown => ""
  | .outOfFuel => ""

/-- Result of evaluating the cells of one row: the per-cell outcomes,
the visited set passed to each call, the set as left by the last call,
and whether a `TypeError` (or fuel exhaustion) aborted the row. -/
structure RowEval where
  outcomes : List Outcome
  visitedBefore : List VSet
  vset : VSet
  crashed : Bool

/-- The inner `for (col …)` loop of `processCSV`: evaluate each field of
the row in order, threading the one shared visited set through the
calls. -/
def evalCellsInRow (g : Grid) (nR nC : Int) :
    List String → VSet → RowEval
  | [], v => ⟨[], [], v, false⟩
  | fval :: rest, v =>
    match evaluateCell (some (normWS fval)) g v nR nC with
    | (o, v') =>
      if o = .thrown ∨ o = .outOfFuel then ⟨[o], [v], v', true⟩
      else
        let R := evalCellsInRow g nR nC rest v'
        ⟨o :: R.outcomes, v :: R.visitedBefore, R.vset, R.crashed⟩

/-- The outer `for (row …)` loop of `processCSV`: re-check the row's
field count, evaluate its cells, join them with `','`.  Also returns the
flat outcome list and the visited set passed to each evaluator call. -/
def evalRows (g : Grid) (nR nC : Int) :
    List String → VSet → Except ProcErr (List String) × List Outcome × List VSet
  | [], _ => (.ok [], [], [])
  | rowStr :: rest, v =>
    let values := splitFields rowStr
    if (values.length : Int) ≠ nC then (.error .inconsistentColumns, [], [])
    else
      let R := evalCellsInRow g nR nC values v
      if R.crashed then (.error .crashed, R.outcomes, R.visitedBefore)
      else
        match evalRows g nR nC rest R.vset with
        | (res, os, tr) =>
          (res.map fun rs => String.intercalate "," (R.outcomes.map renderOutcome) :: rs,
           R.outcomes ++ os, R.visitedBefore ++ tr)

/-- A `processCSV` run: the printed output (or the fatal error), the
outcome of every `evaluateCell` call in call order, and the visited set
passed to each of those calls. -/
structure RunResult where
  output : Except ProcErr String
  outcomes : List Outcome
  visitedBefore : List VSet

/-- `processCSV(csvData)` of the source: split rows on CRLF, take the
column count from the first row, build and populate the grid, create the
single `visitedCells` set, evaluate every cell, and join the output. -/
def processCSV (csvData : String) : RunResult :=
  match csvRows csvData with
  | [] => ⟨.error .crashed, [], []⟩
  | r0 :: _ =>
    let rows := csvRows csvData
    let numRows : Int := rows.length
    let numCols : Int := (splitFields r0).length
    match initializeCells numRows numCols with
    | .error e => ⟨.error e, [], []⟩
    | .ok initialCells =>
      let populatedCells := populateCells rows numRows.toNat numCols.toNat initialCells
      match evalRows populatedCells numRows numCols rows ∅ with
      | (res, os, tr) => ⟨res.map (String.intercalate "\n"), os, tr⟩

/-- In-bounds positions referenced by the tokens of one cell content:
the positional dependency edges of the grid. -/
def refTargets (nR nC : Int) (content : String) : List (Nat × Nat) :=
  (splitTokens content).foldr
    (fun t acc =>
      if cellRefRegexTest t then
        match getCellIndices t with
        | (.int r, .int c) =>
          if 0 ≤ r ∧ r < nR ∧ 0 ≤ c ∧ c < nC then (r.toNat, c.toNat) :: acc else acc
        | _ => acc
      else acc)
    []

/-- Raw content at a position (total, defaulting to the empty cell). -/
def cellAt (g : Grid) (p : Nat × Nat) : String := (g.getD p.1 []).getD p.2 ""

/-- Positional successors of a position. -/
def posSuccs (g : Grid) (nR nC : Int) (p : Nat × Nat) : List (Nat × Nat) :=
  refTargets nR nC (cellAt g p)

/-- One saturation step of forward reachability. -/
def expandPos (g : Grid) (nR nC : Int) (s : List (Nat × Nat)) : List (Nat × Nat) :=
  (s ++ s.flatMap (posSuccs g nR nC)).dedup

/-- Iterated saturation. -/
def iterExpand (g : Grid) (nR nC : Int) : Nat → List (Nat × Nat) → List (Nat × Nat)
  | 0, s => s
  | n + 1, s => iterExpand g nR nC n (expandPos g nR nC s)

/-- Decidable cycle-freeness of a grid's positional reference relation:
no position reaches itself through reference edges. -/
def cycleFreeB (g : Grid) (nR nC : Int) : Bool :=
  ((List.range g.length).flatMap fun r =>
      (List.range ((g.getD r []).length)).map fun c => (r, c)).all
    fun p => decide (p ∉ iterExpand g nR nC (totalCells g) (posSuccs g nR nC p))

/-- The bounds test of `evaluateCell` fails for this reference token
(including the NaN row produced by a multi-letter token). -/
def refOutOfBounds (t : String) (nR nC : Int) : Bool :=
  match getCellIndices t with
  | (.int r, .int c) => !(decide (0 ≤ r) && decide (r < nR) && decide (0 ≤ c) && decide (c < nC))
  | _ => true

/-! ### Supporting lemmas -/

theorem splitOnChar_ne_nil (sep : Char) (l : List Char) : splitOnChar sep l ≠ [] := by
  cases l with
  | nil => simp [splitOnChar]
  | cons c rest =>
    simp only [splitOnChar]
    split
    · simp
    · split <;> simp

/-- Whatever a reference fetches from the grid is in `allVals`. -/
theorem fetch_mem_allVals {g : Grid} {r : Nat} {rowL : List String} (c : Nat)
    (h : g.get? r = some rowL) : (rowL.get? c) ∈ allVals g := by
  cases hc : rowL.get? c with
  | none => exact Finset.mem_insert_self _ _
  | some s =>
    apply Finset.mem_insert_of_mem
    rw [List.mem_toFinset]
    exact List.mem_map_of_mem some
      (List.mem_flatten.2 ⟨rowL, List.get?_mem h, List.get?_mem hc⟩)

theorem card_allVals_le (g : Grid) : (allVals g).card ≤ totalCells g + 1 := by
  calc (allVals g).card ≤ (g.flatten.map some).toFinset.card + 1 :=
        Finset.card_insert_le _ _
    _ ≤ (g.flatten.map some).length + 1 :=
        Nat.add_le_add_right (List.toFinset_card_le _) 1
    _ = totalCells g + 1 := by
        simp only [totalCells, List.length_map, List.length_flatten]

theorem dropWhile_of_all_neg {p : Char → Bool} {l : List Char}
    (h : ∀ x ∈ l, p x = false) : l.dropWhile p = l := by
  cases l with
  | nil => rfl
  | cons a b =>
    rw [List.dropWhile_cons_of_neg]
    simp [h a (List.mem_cons_self a b)]

theorem takeWhile_of_all {p : Char → Bool} {l : List Char}
    (h : l.all p = true) : l.takeWhile p = l := by
  induction l with
  | nil => rfl
  | cons a b ih =>
    simp only [List.all_cons, Bool.and_eq_true] at h
    simp [List.takeWhile_cons, h.1, ih h.2]

/-- A list without whitespace is fixed by `trimChars`. -/
theorem trimChars_of_no_ws {l : List Char}
    (h : ∀ x ∈ l, x.isWhitespace = false) : trimChars l = l := by
  unfold trimChars
  rw [dropWhile_of_all_neg h]
  rw [dropWhile_of_all_neg (fun x hx => h x (List.mem_reverse.1 hx))]
  exact List.reverse_reverse l

/-- Character facts about a decimal digit. -/
theorem decDigit_facts {ch : Char} (h : isDecDigit ch = true) :
    ch.isWhitespace = false ∧ ch ≠ '+' ∧ ch ≠ '-' ∧ ch ≠ 'x' ∧ ch ≠ 'X' := by
  simp only [isDecDigit, Bool.and_eq_true, decide_eq_true_eq] at h
  obtain ⟨h1, h2⟩ := h
  have hs : ch ≠ ' ' := by rintro rfl; exact absurd h1 (by decide)
  have ht : ch ≠ '\t' := by rintro rfl; exact absurd h1 (by decide)
  have hr : ch ≠ '\r' := by rintro rfl; exact absurd h1 (by decide)
  have hn : ch ≠ '\n' := by rintro rfl; exact absurd h1 (by decide)
  refine ⟨by simp [Char.isWhitespace, hs, ht, hr, hn], ?_, ?_, ?_, ?_⟩
  · rintro rfl; exact absurd h1 (by decide)
  · rintro rfl; exact absurd h1 (by decide)
  · rintro rfl; exact absurd h2 (by decide)
  · rintro rfl; exact absurd h2 (by decide)

/-- The frame property of the token loop: if the loop finishes with a
numeric value, the visited set is back to what it was. -/
theorem goTokens_frame (recur : Option String → VSet → Outcome × VSet)
    (g : Grid) (nR nC : Int)
    (hrec : ∀ cell v x v', recur cell v = (.val x, v') → v' = v) :
    ∀ (ts : List String) (v : VSet) (sum x : JSNum) (v' : VSet),
      goTokens recur g nR nC ts v sum = (.val x, v') → v' = v := by
  intro ts
  induction ts with
  | nil =>
    intro v sum x v' h
    simp only [goTokens, Prod.mk.injEq] at h
    exact h.2.symm
  | cons t ts ih =>
    intro v sum x v' h
    simp only [goTokens] at h
    split at h
    · simp at h
    · split at h
      · split at h
        · split at h
          · split at h
            · simp at h
            · split at h
              · simp at h
              · split at h
                case _ x2 v2 heq =>
                  rw [hrec _ _ _ _ heq, Finset.erase_insert (by assumption)] at h
                  exact ih _ _ _ _ h
                case _ o ho =>
                  exact (ho _ _ h).elim
          · simp at h
        · simp at h
      · split at h
        · exact ih _ _ _ _ h
        · simp at h

/-- The frame property of `evaluateCell`: a call that returns a numeric
value leaves the visited set exactly as it found it. -/
theorem evalF_frame (g : Grid) (nR nC : Int) :
    ∀ (fuel : Nat) (cell : Option String) (v : VSet) (x : JSNum) (v' : VSet),
      evalF g nR nC fuel cell v = (.val x, v') → v' = v := by
  intro fuel
  induction fuel with
  | zero => intro cell v x v' h; simp [evalF] at h
  | succ fuel ih =>
    intro cell v x v' h
    cases cell with
    | none => simp [evalF] at h
    | some c =>
      simp only [evalF] at h
      exact goTokens_frame _ g nR nC (fun cell v x v' => ih cell v x v') _ _ _ _ _ h

/-- No `TypeError` can be thrown by the token loop when the claimed row
count does not exceed the actual number of rows. -/
theorem goTokens_no_thrown (recur : Option String → VSet → Outcome × VSet)
    (g : Grid) (nR nC : Int) (hg : nR ≤ (g.length : Int))
    (hrec : ∀ cell v, (recur cell v).1 ≠ .thrown) :
    ∀ (ts : List String) (v : VSet) (sum : JSNum),
      (goTokens recur g nR nC ts v sum).1 ≠ .thrown := by
  intro ts
  induction ts with
  | nil => intro v sum; simp [goTokens]
  | cons t ts ih =>
    intro v sum
    simp only [goTokens]
    split
    · simp
    · split
      · split
        · split
          · split
            · next hnone =>
                exfalso
                rw [List.get?_eq_none] at hnone
                omega
            · split
              · simp
              · split
                · exact ih _ _
                · exact hrec _ _
          · simp
        · simp
      · split
        · exact ih _ _
        · simp

/-- `evaluateCell` never throws when the claimed row count does not
exceed the actual number of rows. -/
theorem evalF_no_thrown (g : Grid) (nR nC : Int) (hg : nR ≤ (g.length : Int)) :
    ∀ (fuel : Nat) (cell : Option String) (v : VSet),
      (evalF g nR nC fuel cell v).1 ≠ .thrown := by
  intro fuel
  induction fuel with
  | zero => intro cell v; simp [evalF]
  | succ fuel ih =>
    intro cell v
    cases cell with
    | none => simp [evalF]
    | some c =>
      simp only [evalF]
      exact goTokens_no_thrown _ g nR nC hg (fun cell v => ih cell v) _ _ _

/-- Fuel adequacy for the token loop: every descent inserts a fresh
member of `allVals g`, so the remaining budget strictly shrinks. -/
theorem goTokens_no_fuelout (g : Grid) (nR nC : Int) (fuel : Nat)
    (hrec : ∀ cell v, (allVals g \ v).card < fuel →
      (evalF g nR nC fuel cell v).1 ≠ .outOfFuel) :
    ∀ (ts : List String) (v : VSet) (sum : JSNum),
      (allVals g \ v).card ≤ fuel →
      (goTokens (evalF g nR nC fuel) g nR nC ts v sum).1 ≠ .outOfFuel := by
  intro ts
  induction ts with
  | nil => intro v sum hv; simp [goTokens]
  | cons t ts ih =>
    intro v sum hv
    simp only [goTokens]
    split
    · simp
    · split
      · split
        · next r c hgi =>
            split
            · split
              · simp
              · next rowL hrow =>
                  split
                  · simp
                  · next hnotin =>
                      have hmem : rowL.get? c.toNat ∈ allVals g :=
                        fetch_mem_allVals c.toNat hrow
                      have hcard : (allVals g \ insert (rowL.get? c.toNat) v).card
                          < (allVals g \ v).card := by
                        apply Finset.card_lt_card
                        refine ⟨Finset.sdiff_subset_sdiff (le_refl _)
                          (Finset.subset_insert _ _), ?_⟩
                        intro hba
                        have h2 : rowL.get? c.toNat ∈ allVals g \ v :=
                          Finset.mem_sdiff.2 ⟨hmem, hnotin⟩
                        have h3 := hba h2
                        simp [Finset.mem_sdiff] at h3
                      split
                      case _ x2 v2 heq =>
                        have hv2 := evalF_frame g nR nC fuel _ _ _ _ heq
                        rw [hv2, Finset.erase_insert hnotin]
                        exact ih _ _ hv
                      case _ o ho =>
                        exact hrec _ _ (Nat.lt_of_lt_of_le hcard hv)
            · simp
        · simp
      · split
        · exact ih _ _ hv
        · simp

/-- Fuel adequacy for `evaluateCell`. -/
theorem evalF_no_fuelout (g : Grid) (nR nC : Int) :
    ∀ (fuel : Nat) (cell : Option String) (v : VSet),
      (allVals g \ v).card < fuel →
      (evalF g nR nC fuel cell v).1 ≠ .outOfFuel := by
  intro fuel
  induction fuel with
  | zero => intro cell v h; exact absurd h (Nat.not_lt_zero _)
  | succ fuel ih =>
    intro cell v h
    cases cell with
    | none => simp [evalF]
    | some c =>
      simp only [evalF]
      exact goTokens_no_fuelout g nR nC fuel ih _ _ _ (Nat.lt_succ_iff.1 h)

/-- Monotonicity of the token loop in the fuel of its evaluator. -/
theorem goTokens_mono (g : Grid) (nR nC : Int) (fuel : Nat)
    (hrec : ∀ cell v, (evalF g nR nC fuel cell v).1 ≠ .outOfFuel →
      evalF g nR nC (fuel + 1) cell v = evalF g nR nC fuel cell v) :
    ∀ (ts : List String) (v : VSet) (sum : JSNum),
      (goTokens (evalF g nR nC fuel) g nR nC ts v sum).1 ≠ .outOfFuel →
      goTokens (evalF g nR nC (fuel + 1)) g nR nC ts v sum
        = goTokens (evalF g nR nC fuel) g nR nC ts v sum := by
  intro ts
  induction ts with
  | nil => intro v sum h; rfl
  | cons t ts ih =>
    intro v sum h
    by_cases htrim : trimChars t.toList = []
    · simp only [goTokens, if_pos htrim]
    · by_cases hre : cellRefRegexTest t = true
      · rcases hgi : getCellIndices t with ⟨rj, cj⟩
        cases rj with
        | nan => simp only [goTokens, if_neg htrim, if_pos hre, hgi]
        | int r =>
          cases cj with
          | nan => simp only [goTokens, if_neg htrim, if_pos hre, hgi]
          | int c =>
            by_cases hb : 0 ≤ r ∧ r < nR ∧ 0 ≤ c ∧ c < nC
            · rcases hrow : g.get? r.toNat with _ | rowL
              · simp only [goTokens, if_neg htrim, if_pos hre, hgi, hrow, if_pos hb]
              · by_cases hin : rowL.get? c.toNat ∈ v
                · simp only [goTokens, if_neg htrim, if_pos hre, hgi, hrow,
                    if_pos hb, if_pos hin]
                · rcases hE : evalF g nR nC fuel (rowL.get? c.toNat)
                    (insert (rowL.get? c.toNat) v) with ⟨o, v2⟩
                  have hrw := hrec (rowL.get? c.toNat) (insert (rowL.get? c.toNat) v)
                  simp only [goTokens, if_neg htrim, if_pos hre, hgi, hrow,
                    if_pos hb, if_neg hin, hE] at h ⊢
                  cases o with
                  | outOfFuel => exact absurd rfl h
                  | val x =>
                    rw [hrw (by rw [hE]; simp), hE]
                    exact ih _ _ h
                  | err k => rw [hrw (by rw [hE]; simp), hE]
                  | thrown => rw [hrw (by rw [hE]; simp), hE]
            · simp only [goTokens, if_neg htrim, if_pos hre, hgi, if_neg hb]
      · by_cases hn : (!(jsNumberIsNaN t)) = true
        · simp only [goTokens, if_neg htrim, if_neg hre, if_pos hn] at h ⊢
          exact ih _ _ h
        · simp only [goTokens, if_neg htrim, if_neg hre, if_neg hn]

/-- One-step fuel monotonicity of `evaluateCell`. -/
theorem evalF_mono_succ (g : Grid) (nR nC : Int) :
    ∀ (fuel : Nat) (cell : Option String) (v : VSet),
      (evalF g nR nC fuel cell v).1 ≠ .outOfFuel →
      evalF g nR nC (fuel + 1) cell v = evalF g nR nC fuel cell v := by
  intro fuel
  induction fuel with
  | zero => intro cell v h; simp [evalF] at h
  | succ fuel ih =>
    intro cell v h
    cases cell with
    | none => rfl
    | some c =>
      simp only [evalF] at h ⊢
      exact goTokens_mono g nR nC fuel (fun cell v => ih cell v) _ _ _ h

/-- Fuel stability: past any adequate fuel, the result is fixed. -/
theorem evalF_stable (g : Grid) (nR nC : Int) (fuel fuel' : Nat)
    (hle : fuel ≤ fuel') (cell : Option String) (v : VSet)
    (h : (evalF g nR nC fuel cell v).1 ≠ .outOfFuel) :
    evalF g nR nC fuel' cell v = evalF g nR nC fuel cell v := by
  induction fuel' with
  | zero =>
    have : fuel = 0 := Nat.le_zero.1 hle
    rw [this]
  | succ fuel' ih =>
    rcases Nat.lt_or_ge fuel (fuel' + 1) with hlt | hge
    · have hle' : fuel ≤ fuel' := Nat.lt_succ_iff.1 hlt
      have heq := ih hle'
      rw [← heq] at h
      rw [evalF_mono_succ g nR nC fuel' cell v h, heq]
    · have : fuel = fuel' + 1 := Nat.le_antisymm hle hge
      rw [this]

/-- The canonical fuel is always adequate. -/
theorem stdFuel_no_fuelout (g : Grid) (nR nC : Int) (cell : Option String) (v : VSet) :
    (evalF g nR nC (stdFuel g) cell v).1 ≠ .outOfFuel := by
  apply evalF_no_fuelout
  have h1 : (allVals g \ v).card ≤ (allVals g).card :=
    Finset.card_le_card (Finset.sdiff_subset)
  have h2 := card_allVals_le g
  simp only [stdFuel]
  omega

/-- Unfolding of one fuelled `evaluateCell` call on a present cell. -/
theorem evalF_succ_some (g : Grid) (nR nC : Int) (fuel : Nat) (c : String) (v : VSet) :
    evalF g nR nC (fuel + 1) (some c) v
      = goTokens (evalF g nR nC fuel) g nR nC (splitTokens c) v (.int 0) := rfl

/-- Reduction of the token loop at an in-bounds reference token. -/
theorem goTokens_ref_step (recur : Option String → VSet → Outcome × VSet)
    (g : Grid) (nR nC : Int) (t : String) (ts : List String) (v : VSet)
    (sum : JSNum) (r c : Int) (rowL : List String)
    (htrim : trimChars t.toList ≠ []) (hre : cellRefRegexTest t = true)
    (hgi : getCellIndices t = (.int r, .int c))
    (hb : 0 ≤ r ∧ r < nR ∧ 0 ≤ c ∧ c < nC)
    (hrow : g.get? r.toNat = some rowL) :
    goTokens recur g nR nC (t :: ts) v sum =
      if rowL.get? c.toNat ∈ v then (.err .circular, v)
      else
        match recur (rowL.get? c.toNat) (insert (rowL.get? c.toNat) v) with
        | (.val x, v2) =>
            goTokens recur g nR nC ts (v2.erase (rowL.get? c.toNat)) (jsAdd sum x)
        | other => other := by
  simp only [goTokens, if_neg htrim, if_pos hre, hgi, hrow, if_pos hb]

/-- Reduction of the token loop at an out-of-bounds reference token. -/
theorem goTokens_oob_step (recur : Option String → VSet → Outcome × VSet)
    (g : Grid) (nR nC : Int) (t : String) (ts : List String) (v : VSet)
    (sum : JSNum)
    (htrim : trimChars t.toList ≠ []) (hre : cellRefRegexTest t = true)
    (hob : refOutOfBounds t nR nC = true) :
    goTokens recur g nR nC (t :: ts) v sum = (.err .outOfBounds, v) := by
  unfold refOutOfBounds at hob
  rcases hgi : getCellIndices t with ⟨rj, cj⟩
  rw [hgi] at hob
  cases rj with
  | nan => simp only [goTokens, if_neg htrim, if_pos hre, hgi]
  | int r =>
    cases cj with
    | nan => simp only [goTokens, if_neg htrim, if_pos hre, hgi]
    | int c =>
      have hnb : ¬(0 ≤ r ∧ r < nR ∧ 0 ≤ c ∧ c < nC) := by
        intro hb
        rcases hb with ⟨h1, h2, h3, h4⟩
        simp [h1, h2, h3, h4] at hob
      simp only [goTokens, if_neg htrim, if_pos hre, hgi, if_neg hnb]

/-- Reduction of the token loop at a token that is neither a reference
nor numeric. -/
theorem goTokens_invalid_step (recur : Option String → VSet → Outcome × VSet)
    (g : Grid) (nR nC : Int) (t : String) (ts : List String) (v : VSet)
    (sum : JSNum)
    (htrim : trimChars t.toList ≠ []) (hre : cellRefRegexTest t = false)
    (hnan : jsNumberIsNaN t = true) :
    goTokens recur g nR nC (t :: ts) v sum = (.err .invalidFormat, v) := by
  have hre' : ¬(cellRefRegexTest t = true) := by simp [hre]
  have hnan' : ¬((!jsNumberIsNaN t) = true) := by simp [hnan]
  simp only [goTokens, if_neg htrim, if_neg hre', if_neg hnan']

/-- A token loop that reaches an out-of-bounds reference token can never
finish with a numeric value. -/
theorem goTokens_oob_never_val (recur : Option String → VSet → Outcome × VSet)
    (g : Grid) (nR nC : Int) (t : String)
    (hre : cellRefRegexTest t = true) (hob : refOutOfBounds t nR nC = true) :
    ∀ (ts : List String) (v : VSet) (sum x : JSNum),
      t ∈ ts → (goTokens recur g nR nC ts v sum).1 ≠ .val x := by
  intro ts
  induction ts with
  | nil => intro v sum x ht; simp at ht
  | cons u ts ih =>
    intro v sum x ht
    rcases List.mem_cons.1 ht with rfl | htl
    · by_cases htrim : trimChars t.toList = []
      · have htrim' : trimChars t.data = [] := htrim
        simp [goTokens, htrim']
      · rw [goTokens_oob_step recur g nR nC t ts v sum htrim hre hob]
        simp
    · simp only [goTokens]
      split
      · simp
      · split
        · split
          · split
            · split
              · simp
              · split
                · simp
                · split
                  case _ x2 v2 heq => exact ih _ _ _ htl
                  case _ o ho =>
                    rcases hE : recur _ _ with ⟨o2, v2⟩
                    cases o2 with
                    | val xx => exact (ho xx v2 hE).elim
                    | err k => simp
                    | thrown => simp
                    | outOfFuel => simp
            · simp
          · simp
        · split
          · exact ih _ _ _ htl
          · simp

/-- A row and a column witness make the grid non-empty. -/
theorem totalCells_pos {g : Grid} {i : Nat} {rowL : List String} {j : Nat} {s : String}
    (h : g.get? i = some rowL) (h2 : rowL.get? j = some s) : 1 ≤ totalCells g := by
  have hmem : s ∈ g.flatten :=
    List.mem_flatten.2 ⟨rowL, List.get?_mem h, List.get?_mem h2⟩
  have hpos : 0 < g.flatten.length := List.length_pos.2 (List.ne_nil_of_mem hmem)
  calc 1 ≤ g.flatten.length := hpos
    _ = totalCells g := by simp only [totalCells, List.length_flatten]

/-- The first visited set a row's evaluation passes on is the one it
received (or the row evaluates no cell and hands the set on intact). -/
theorem evalCellsInRow_trace_head (g : Grid) (nR nC : Int)
    (values : List String) (v : VSet) :
    (evalCellsInRow g nR nC values v).visitedBefore.head? = some v ∨
    ((evalCellsInRow g nR nC values v).visitedBefore = [] ∧
     (evalCellsInRow g nR nC values v).vset = v) := by
  cases values with
  | nil => exact Or.inr ⟨rfl, rfl⟩
  | cons f rest =>
    left
    simp only [evalCellsInRow]
    split <;> rfl

/-- The first visited set any cell of the whole pass receives is the
set the pass started with. -/
theorem evalRows_trace_head (g : Grid) (nR nC : Int) :
    ∀ (rows : List String) (v : VSet),
      (evalRows g nR nC rows v).2.2.head? = some v ∨
      (evalRows g nR nC rows v).2.2 = [] := by
  intro rows
  induction rows with
  | nil => intro v; exact Or.inr rfl
  | cons rowStr rest ih =>
    intro v
    simp only [evalRows]
    split
    · exact Or.inr rfl
    · rcases evalCellsInRow_trace_head g nR nC (splitFields rowStr) v with hh | ⟨he, hv⟩
      · split
        · exact Or.inl hh
        · left
          dsimp only
          rcases hl : (evalCellsInRow g nR nC (splitFields rowStr) v).visitedBefore
            with _ | ⟨a, tl⟩
          · rw [hl] at hh; simp at hh
          · rw [hl] at hh
            simpa using hh
      · split
        · rw [he]; exact Or.inr rfl
        · dsimp only
          rw [he, hv, List.nil_append]
          exact ih _

/-- Rows whose field count matches evaluate without crashing, one
outcome per field. -/
theorem evalCellsInRow_ok (g : Grid) (nR nC : Int) (hg : nR ≤ (g.length : Int)) :
    ∀ (values : List String) (v : VSet),
      (evalCellsInRow g nR nC values v).crashed = false ∧
      (evalCellsInRow g nR nC values v).outcomes.length = values.length := by
  intro values
  induction values with
  | nil => intro v; exact ⟨rfl, rfl⟩
  | cons f rest ih =>
    intro v
    simp only [evalCellsInRow]
    rcases hE : evaluateCell (some (normWS f)) g v nR nC with ⟨o, v'⟩
    have hE' : evalF g nR nC (stdFuel g) (some (normWS f)) v = (o, v') := hE
    have hth : o ≠ Outcome.thrown := by
      have h1 := evalF_no_thrown g nR nC hg (stdFuel g) (some (normWS f)) v
      rw [hE'] at h1; exact h1
    have hfu : o ≠ Outcome.outOfFuel := by
      have h1 := stdFuel_no_fuelout g nR nC (some (normWS f)) v
      rw [hE'] at h1; exact h1
    have hcond : ¬(o = Outcome.thrown ∨ o = Outcome.outOfFuel) := by
      rintro (hh | hh)
      · exact hth hh
      · exact hfu hh
    rw [if_neg hcond]
    refine ⟨(ih v').1, ?_⟩
    simp [(ih v').2]

/-- If any row of the remaining list has a field count different from
the grid's column count, the pass aborts with `InconsistentColumns`. -/
theorem evalRows_inconsistent (g : Grid) (nR nC : Int) (hg : nR ≤ (g.length : Int)) :
    ∀ (rows : List String) (v : VSet),
      (∃ r ∈ rows, ((splitFields r).length : Int) ≠ nC) →
      (evalRows g nR nC rows v).1 = .error .inconsistentColumns := by
  intro rows
  induction rows with
  | nil => intro v h; simp at h
  | cons rowStr rest ih =>
    intro v hbad
    simp only [evalRows]
    by_cases hlen : ((splitFields rowStr).length : Int) ≠ nC
    · rw [if_pos hlen]
    · rw [if_neg hlen]
      have hok := evalCellsInRow_ok g nR nC hg (splitFields rowStr) v
      have hcr : (evalCellsInRow g nR nC (splitFields rowStr) v).crashed = false := hok.1
      rw [if_neg (by simp [hcr])]
      have hrest : ∃ r ∈ rest, ((splitFields r).length : Int) ≠ nC := by
        rcases hbad with ⟨r, hr, hne⟩
        rcases List.mem_cons.1 hr with rfl | hr'
        · exact absurd hne hlen
        · exact ⟨r, hr', hne⟩
      have hres := ih (evalCellsInRow g nR nC (splitFields rowStr) v).vset hrest
      dsimp only
      rw [hres]
      rfl

/-- When the first row's field count matches, its cells are all
evaluated before any later row can abort the run. -/
theorem evalRows_head_evaluated (g : Grid) (nR nC : Int) (hg : nR ≤ (g.length : Int))
    (rowStr : String) (rest : List String) (v : VSet)
    (hlen : ((splitFields rowStr).length : Int) = nC) :
    (splitFields rowStr).length ≤ (evalRows g nR nC (rowStr :: rest) v).2.1.length := by
  simp only [evalRows]
  rw [if_neg (fun hne => hne hlen)]
  have hok := evalCellsInRow_ok g nR nC hg (splitFields rowStr) v
  rw [if_neg (by simp [hok.1])]
  dsimp only
  rw [List.length_append, hok.2]
  exact Nat.le_add_right _ _

/-- `splitFields` never returns the empty list. -/
theorem splitFields_ne_nil (s : String) : splitFields s ≠ [] := by
  intro h
  exact splitOnChar_ne_nil ',' s.toList (List.map_eq_nil_iff.1 h)

/-- `populateCells` produces exactly the requested number of rows. -/
theorem populateCells_length (rows : List String) (numRows numCols : Nat)
    (init : Grid) : (populateCells rows numRows numCols init).length = numRows := by
  simp [populateCells]

/-! ### Claim theorems -/

/-- C2: `evaluateCell` adds the referenced cell's textual content (not
its coordinates) to the visited set and tests membership by content; in
the cycle-free grid `B1,5 Z9,D1,5 Z9` the two distinct cells (0,1) and
(0,3) hold the identical text `"5 Z9"`, and the run reports a circular
dependency (returning the error marker) for cell `D1`, whose reference
chain is in fact acyclic. -/
theorem c2_visited_keyed_by_content :
    cycleFreeB [["B1", "5 Z9", "D1", "5 Z9"]] 1 4 = true ∧
    ((0, 1) : Nat × Nat) ≠ (0, 3) ∧
    cellAt [["B1", "5 Z9", "D1", "5 Z9"]] (0, 1)
      = cellAt [["B1", "5 Z9", "D1", "5 Z9"]] (0, 3) ∧
    (evaluateCell (some "D1") [["B1", "5 Z9", "D1", "5 Z9"]] ∅ 1 4).2
      = {some "5 Z9"} ∧
    (processCSV "B1,5 Z9,D1,5 Z9").outcomes
      = [.err .outOfBounds, .err .outOfBounds, .err .circular, .err .outOfBounds] := by
  exact ⟨by decide, by decide, by decide, by decide, by decide⟩

/-- C3 (code bug): `evaluateCell` can return NaN, which is neither an
integer nor the error marker: the numeric-looking token `".5"` passes
the `!isNaN` test but `parseInt` yields NaN, and the NaN sum is
returned; end to end, the run prints `"NaN"`. -/
theorem c3_nan_escapes :
    evaluateCell (some ".5") [[""]] ∅ 1 1 = (.val .nan, ∅) ∧
    (processCSV ".5").output = Except.ok "NaN" := by
  exact ⟨by decide, rfl⟩

/-- C4 (counterexample): `"AB12"` matches the reference pattern
`[A-Z]+\d{1,2}`, but `getCellIndices` returns row NaN (not 11), because
`parseInt` is applied to everything after the *first* character. -/
theorem c4_counterexample :
    cellRefRegexTest "AB12" = true ∧
    getCellIndices "AB12" = (JSNum.nan, JSNum.int 0) ∧
    getCellIndices "AB12" ≠ (JSNum.int 11, JSNum.int 0) := by
  exact ⟨by decide, by decide, by decide⟩

/-- C4 (amended): for a *single* uppercase letter followed by digits,
`getCellIndices` returns the digits parsed as an integer minus one and
the letter's offset from `'A'`; with more than one letter the slice
after the first character does not parse and the row is NaN. -/
theorem c4_single_letter_indices (ch : Char) (ds : List Char)
    (h1 : isUpperAZ ch = true) (h2 : ds ≠ []) (h3 : ds.length ≤ 2)
    (h4 : ds.all isDecDigit = true) :
    getCellIndices (String.mk (ch :: ds))
      = (JSNum.int ((decDigitsVal ds : Int) - 1),
         JSNum.int ((ch.toNat : Int) - 65)) := by
  have hds : ∀ x ∈ ds, isDecDigit x = true := by
    intro x hx; exact List.all_eq_true.1 h4 x hx
  have htrim : trimChars ds = ds :=
    trimChars_of_no_ws (fun x hx => (decDigit_facts (hds x hx)).1)
  have htake : ds.takeWhile isDecDigit = ds := takeWhile_of_all h4
  simp only [getCellIndices, String.toList, String.mk, List.drop_one, List.tail_cons]
  simp only [Prod.mk.injEq, and_true]
  cases ds with
    | nil => exact absurd rfl h2
    | cons d0 rest =>
      obtain ⟨-, hplus, hminus, hx, hX⟩ :=
        decDigit_facts (hds d0 (List.mem_cons_self d0 rest))
      simp only [jsParseInt, String.toList, String.mk] at *
      rw [htrim]
      simp only [jsParseIntChars, if_neg hplus, if_neg hminus]
      cases rest with
      | nil =>
        simp only [htake]
        simp [jsSubOne, decDigitsVal]
      | cons d1 rest' =>
        obtain ⟨-, -, -, hx1, hX1⟩ :=
          decDigit_facts (hds d1 (List.mem_cons_of_mem d0 (List.mem_cons_self d1 rest')))
        have hcond : ¬(d0 = '0' ∧ (d1 = 'x' ∨ d1 = 'X')) := by
          rintro ⟨-, hx2 | hX2⟩
          · exact hx1 hx2
          · exact hX1 hX2
        simp only [if_neg hcond]
        rw [htake]
        simp [jsSubOne, if_neg h2]

/-- C4 amended theorem instantiated at the token `"A12"`. -/
theorem c4_single_letter_indices_witness :
    getCellIndices (String.mk ['A', '1', '2'])
      = (JSNum.int 11, JSNum.int 0) := by
  have h := c4_single_letter_indices 'A' ['1', '2'] (by decide) (by decide)
    (by decide) (by decide)
  rw [h]
  decide

/-- C5: a direct self-reference (a cell whose content is a single
reference token resolving to itself) and a two-cycle (cell X references
Y, Y references X) both evaluate to the error marker with a
circular-dependency diagnostic, whatever visited set the evaluation
starts from. -/
theorem c5_cycles_err :
    (∀ (t : String) (g : Grid) (v : VSet) (nR nC : Int) (r c : Int) (rowL : List String),
      splitTokens t = [t] → trimChars t.toList ≠ [] →
      cellRefRegexTest t = true → getCellIndices t = (.int r, .int c) →
      (0 ≤ r ∧ r < nR ∧ 0 ≤ c ∧ c < nC) →
      g.get? r.toNat = some rowL → rowL.get? c.toNat = some t →
      (evaluateCell (some t) g v nR nC).1 = .err .circular) ∧
    (∀ (a b : String) (g : Grid) (v : VSet) (nR nC : Int)
        (ra ca rb cb : Int) (rowA rowB : List String),
      splitTokens a = [a] → trimChars a.toList ≠ [] →
      cellRefRegexTest a = true → getCellIndices a = (.int rb, .int cb) →
      (0 ≤ rb ∧ rb < nR ∧ 0 ≤ cb ∧ cb < nC) →
      g.get? rb.toNat = some rowB → rowB.get? cb.toNat = some b →
      splitTokens b = [b] → trimChars b.toList ≠ [] →
      cellRefRegexTest b = true → getCellIndices b = (.int ra, .int ca) →
      (0 ≤ ra ∧ ra < nR ∧ 0 ≤ ca ∧ ca < nC) →
      g.get? ra.toNat = some rowA → rowA.get? ca.toNat = some a →
      (evaluateCell (some a) g v nR nC).1 = .err .circular) := by
  constructor
  · intro t g v nR nC r c rowL hsplit htrim hre hgi hb hrow hrc
    obtain ⟨T, hT⟩ : ∃ T, totalCells g = T + 1 := by
      have := totalCells_pos hrow hrc
      exact ⟨totalCells g - 1, by omega⟩
    have hfuel : stdFuel g = (T + 2) + 1 := by simp [stdFuel, hT]
    show (evalF g nR nC (stdFuel g) (some t) v).1 = _
    rw [hfuel, evalF_succ_some, hsplit,
      goTokens_ref_step _ g nR nC t [] v _ r c rowL htrim hre hgi hb hrow, hrc]
    by_cases hv : some t ∈ v
    · rw [if_pos hv]
    · rw [if_neg hv]
      have e2 : evalF g nR nC (T + 2) (some t) (insert (some t) v)
          = goTokens (evalF g nR nC (T + 1)) g nR nC [t] (insert (some t) v) (.int 0) := by
        rw [evalF_succ_some, hsplit]
      rw [e2, goTokens_ref_step _ g nR nC t [] _ _ r c rowL htrim hre hgi hb hrow, hrc,
        if_pos (Finset.mem_insert_self (some t) v)]
  · intro a b g v nR nC ra ca rb cb rowA rowB
      hsplita htrima hrea hgia hba hrowB hrcB hsplitb htrimb hreb hgib hbb hrowA hrcA
    obtain ⟨T, hT⟩ : ∃ T, totalCells g = T + 1 := by
      have := totalCells_pos hrowB hrcB
      exact ⟨totalCells g - 1, by omega⟩
    have hfuel : stdFuel g = (T + 2) + 1 := by simp [stdFuel, hT]
    show (evalF g nR nC (stdFuel g) (some a) v).1 = _
    rw [hfuel, evalF_succ_some, hsplita,
      goTokens_ref_step _ g nR nC a [] v _ rb cb rowB htrima hrea hgia hba hrowB, hrcB]
    by_cases hv1 : some b ∈ v
    · rw [if_pos hv1]
    · rw [if_neg hv1]
      have e2 : evalF g nR nC (T + 2) (some b) (insert (some b) v)
          = goTokens (evalF g nR nC (T + 1)) g nR nC [b] (insert (some b) v) (.int 0) := by
        rw [evalF_succ_some, hsplitb]
      rw [e2, goTokens_ref_step _ g nR nC b [] _ _ ra ca rowA htrimb hreb hgib hbb hrowA,
        hrcA]
      by_cases hv2 : some a ∈ insert (some b) v
      · rw [if_pos hv2]
      · rw [if_neg hv2]
        have e3 : evalF g nR nC (T + 1) (some a) (insert (some a) (insert (some b) v))
            = goTokens (evalF g nR nC T) g nR nC [a]
                (insert (some a) (insert (some b) v)) (.int 0) := by
          rw [evalF_succ_some, hsplita]
        rw [e3, goTokens_ref_step _ g nR nC a [] _ _ rb cb rowB htrima hrea hgia hba hrowB,
          hrcB,
          if_pos (Finset.mem_insert_of_mem (Finset.mem_insert_self (some b) v))]

/-- C5 instantiated: `A1` containing `"A1"` and the two-cell cycle
`B1,A1` both evaluate to the circular-dependency error. -/
theorem c5_cycles_err_witness :
    (evaluateCell (some "A1") [["A1"]] ∅ 1 1).1 = .err .circular ∧
    (evaluateCell (some "B1") [["B1", "A1"]] ∅ 1 2).1 = .err .circular := by
  constructor
  · exact c5_cycles_err.1 "A1" [["A1"]] ∅ 1 1 0 0 ["A1"] (by decide) (by decide)
      (by decide) (by decide) (by decide) (by decide) (by decide)
  · exact c5_cycles_err.2 "B1" "A1" [["B1", "A1"]] ∅ 1 2 0 0 0 1 ["B1", "A1"]
      ["B1", "A1"] (by decide) (by decide) (by decide) (by decide) (by decide)
      (by decide) (by decide) (by decide) (by decide) (by decide) (by decide)
      (by decide) (by decide) (by decide)

/-- C6: a reference token that fails the bounds test short-circuits the
cell: when it is the first token, the call returns the out-of-bounds
error with the visited set untouched, for every grid, every remaining
token list and any fuel — so nothing is recursed into and no further
token is processed; and whenever such a token occurs anywhere in the
cell, the cell evaluates to the error marker. -/
theorem c6_oob_short_circuit :
    (∀ (cell t : String) (ts : List String) (g : Grid) (v : VSet) (nR nC : Int),
      splitTokens cell = t :: ts → trimChars t.toList ≠ [] →
      cellRefRegexTest t = true → refOutOfBounds t nR nC = true →
      evaluateCell (some cell) g v nR nC = (.err .outOfBounds, v)) ∧
    (∀ (cell t : String) (g : Grid) (v : VSet) (nR nC : Int),
      t ∈ splitTokens cell → cellRefRegexTest t = true →
      refOutOfBounds t nR nC = true → nR ≤ (g.length : Int) →
      ∃ k, (evaluateCell (some cell) g v nR nC).1 = .err k) := by
  constructor
  · intro cell t ts g v nR nC hsplit htrim hre hob
    show evalF g nR nC (stdFuel g) (some cell) v = _
    have hfuel : stdFuel g = (totalCells g + 1) + 1 := rfl
    rw [hfuel, evalF_succ_some, hsplit,
      goTokens_oob_step _ g nR nC t ts v _ htrim hre hob]
  · intro cell t g v nR nC hmem hre hob hg
    have hfuel : stdFuel g = (totalCells g + 1) + 1 := rfl
    have hunf : evaluateCell (some cell) g v nR nC
        = goTokens (evalF g nR nC (totalCells g + 1)) g nR nC (splitTokens cell) v
            (.int 0) := by
      show evalF g nR nC (stdFuel g) (some cell) v = _
      rw [hfuel, evalF_succ_some]
    rcases hO : (evaluateCell (some cell) g v nR nC).1 with x | k | _ | _
    · exfalso
      rw [hunf] at hO
      exact goTokens_oob_never_val _ g nR nC t hre hob _ _ _ _ hmem hO
    · exact ⟨k, rfl⟩
    · exfalso
      exact evalF_no_thrown g nR nC hg (stdFuel g) (some cell) v hO
    · exfalso
      exact stdFuel_no_fuelout g nR nC (some cell) v hO

/-- C6 instantiated: the out-of-bounds reference `A9` in a 1×1 grid,
first as the only token of a cell, then occurring after a literal. -/
theorem c6_oob_short_circuit_witness :
    evaluateCell (some "A9") [["7"]] ∅ 1 1 = (.err .outOfBounds, ∅) ∧
    ∃ k, (evaluateCell (some "5 A9") [["7"]] ∅ 1 1).1 = .err k := by
  constructor
  · exact c6_oob_short_circuit.1 "A9" "A9" [] [["7"]] ∅ 1 1 (by decide) (by decide)
      (by decide) (by decide)
  · exact c6_oob_short_circuit.2 "5 A9" "A9" [["7"]] ∅ 1 1 (by decide) (by decide)
      (by decide) (by decide)

/-- C7 (counterexample): the token `"3.5"` matches neither the
reference pattern nor the integer grammar, yet `evaluateCell` does not
return the error marker: `!isNaN("3.5")` holds and `parseInt`
truncates, so the cell evaluates to 3. -/
theorem c7_counterexample :
    cellRefRegexTest "3.5" = false ∧
    evaluateCell (some "3.5") [[""]] ∅ 1 1 = (.val (.int 3), ∅) := by
  exact ⟨by decide, by decide⟩

/-- C7 (amended): a token that is neither a reference-pattern match nor
numeric (`isNaN(Number(token))`) makes the cell return the
invalid-format error immediately — for every grid, every remaining
token list and any fuel — while numeric non-integer tokens are instead
truncated by `parseInt`. -/
theorem c7_invalid_short_circuit (cell t : String) (ts : List String)
    (g : Grid) (v : VSet) (nR nC : Int)
    (hsplit : splitTokens cell = t :: ts) (htrim : trimChars t.toList ≠ [])
    (hre : cellRefRegexTest t = false) (hnan : jsNumberIsNaN t = true) :
    evaluateCell (some cell) g v nR nC = (.err .invalidFormat, v) := by
  show evalF g nR nC (stdFuel g) (some cell) v = _
  have hfuel : stdFuel g = (totalCells g + 1) + 1 := rfl
  rw [hfuel, evalF_succ_some, hsplit,
    goTokens_invalid_step _ g nR nC t ts v _ htrim hre hnan]

/-- C7 amended theorem instantiated at the spec's example token
`"###a32432"`. -/
theorem c7_invalid_short_circuit_witness :
    evaluateCell (some "###a32432") [["7"]] ∅ 1 1 = (.err .invalidFormat, ∅) :=
  c7_invalid_short_circuit "###a32432" "###a32432" [] [["7"]] ∅ 1 1
    (by decide) (by decide) (by decide) (by decide)

/-- C9: a call of `evaluateCell` that returns an integer leaves the
visited set exactly as it found it (every entry added for a reference
was erased when that recursion returned successfully). -/
theorem c9_visited_restored (cell : Option String) (initialCells : Grid)
    (visitedCells : VSet) (numRows numCols : Int) (n : Int) (v' : VSet)
    (h : evaluateCell cell initialCells visitedCells numRows numCols
      = (.val (.int n), v')) :
    v' = visitedCells :=
  evalF_frame initialCells numRows numCols (stdFuel initialCells) cell
    visitedCells (.int n) v' h

/-- C9 instantiated: `"1 2 3"` evaluates to 6 and returns the empty
visited set unchanged. -/
theorem c9_visited_restored_witness :
    evaluateCell (some "1 2 3") [[""]] ∅ 1 1 = (.val (.int 6), ∅) ∧
    (∅ : VSet) = (∅ : VSet) :=
  ⟨by decide, c9_visited_restored (some "1 2 3") [[""]] ∅ 1 1 6 ∅ (by decide)⟩

/-- C10: `evaluateCell` terminates on every grid, cell text, visited set
and dimensions: the canonical fuel `stdFuel` (one more than the number
of distinct cell values plus one) is never exhausted, and every larger
fuel computes the same result. -/
theorem c10_terminates (cell : Option String) (initialCells : Grid)
    (visitedCells : VSet) (numRows numCols : Int) (fuel : Nat)
    (h : stdFuel initialCells ≤ fuel) :
    evalF initialCells numRows numCols fuel cell visitedCells
      = evaluateCell cell initialCells visitedCells numRows numCols ∧
    (evaluateCell cell initialCells visitedCells numRows numCols).1 ≠ .outOfFuel :=
  ⟨evalF_stable initialCells numRows numCols (stdFuel initialCells) fuel h cell
      visitedCells
      (stdFuel_no_fuelout initialCells numRows numCols cell visitedCells),
   stdFuel_no_fuelout initialCells numRows numCols cell visitedCells⟩

/-- C10 instantiated on a 1×1 grid with extra fuel. -/
theorem c10_terminates_witness :
    evalF [["7"]] 1 1 9 (some "A1") ∅ = evaluateCell (some "A1") [["7"]] ∅ 1 1 ∧
    (evaluateCell (some "A1") [["7"]] ∅ 1 1).1 ≠ .outOfFuel :=
  c10_terminates (some "A1") [["7"]] ∅ 1 1 9 (by decide)

/-- C1 (counterexample): in the grid `A1,5`, the visited set that
`processCSV` passes to the evaluation of the second cell still contains
the entry `"A1"` left over from the first cell's (erroring) evaluation
— the set is not fresh per cell. -/
theorem c1_fresh_set_counterexample :
    (processCSV "A1,5").visitedBefore = [∅, {some "A1"}] ∧
    ({some "A1"} : VSet) ≠ ∅ := by
  exact ⟨by decide, by decide⟩

/-- C1 (amended): `processCSV` creates a single empty visited set at
the start of the grid pass and shares it across all cells: the first
evaluator call receives the empty set, and later calls receive whatever
the previous call left behind (which, after an error, can be
non-empty). -/
theorem c1_single_shared_set (csvData : String) :
    (processCSV csvData).visitedBefore.head? = some ∅ ∨
    (processCSV csvData).visitedBefore = [] := by
  unfold processCSV
  split
  · exact Or.inr rfl
  · dsimp only
    split
    · exact Or.inr rfl
    · dsimp only
      exact evalRows_trace_head _ _ _ _ ∅

/-- C8 (counterexample): on the input `1,2,3\r\n4,5` the run does fail
with `InconsistentColumns`, but three cells (the whole first row) were
evaluated before the abort — not zero. -/
theorem c8_counterexample :
    (processCSV "1,2,3\r\n4,5").output = Except.error ProcErr.inconsistentColumns ∧
    (processCSV "1,2,3\r\n4,5").outcomes.length = 3 := by
  exact ⟨rfl, rfl⟩

/-- C8 (amended): when some row's field count differs from the first
row's, the whole run fails with the fatal `InconsistentColumns` error
and no output is produced, but the cells of the rows preceding the
first offending row — at least the entire first row, never zero cells —
are evaluated before the abort. -/
theorem c8_inconsistent_aborts (csvData r0 : String) (rest : List String)
    (hrows : csvRows csvData = r0 :: rest)
    (hbad : ∃ r ∈ rest,
      ((splitFields r).length : Int) ≠ ((splitFields r0).length : Int)) :
    (processCSV csvData).output = .error .inconsistentColumns ∧
    (splitFields r0).length ≤ (processCSV csvData).outcomes.length ∧
    (processCSV csvData).outcomes.length ≠ 0 := by
  have hcols : 0 < (splitFields r0).length :=
    List.length_pos.2 (splitFields_ne_nil r0)
  unfold processCSV
  rw [hrows]
  dsimp only
  have hguard : ¬((((r0 :: rest).length : Int) ≤ 0) ∨
      (((splitFields r0).length : Int) ≤ 0)) := by
    simp only [List.length_cons]
    push_cast
    omega
  rw [initializeCells, if_neg hguard]
  dsimp only
  set g := populateCells (r0 :: rest) ((r0 :: rest).length : Int).toNat
    ((splitFields r0).length : Int).toNat
    (List.replicate ((r0 :: rest).length : Int).toNat
      (List.replicate ((splitFields r0).length : Int).toNat "")) with hgdef
  have hglen : ((r0 :: rest).length : Int) ≤ (g.length : Int) := by
    rw [hgdef, populateCells_length]
    simp
  have hbad' : ∃ r ∈ r0 :: rest,
      ((splitFields r).length : Int) ≠ ((splitFields r0).length : Int) := by
    rcases hbad with ⟨r, hr, hne⟩
    exact ⟨r, List.mem_cons_of_mem _ hr, hne⟩
  refine ⟨?_, ?_, ?_⟩
  · rw [evalRows_inconsistent g _ _ hglen (r0 :: rest) ∅ hbad']
    rfl
  · exact evalRows_head_evaluated g _ _ hglen r0 rest ∅ rfl
  · have hle := evalRows_head_evaluated g _ _ hglen r0 rest ∅ rfl
    intro hzero
    rw [hzero] at hle
    omega

/-- C8 amended theorem instantiated at the input `1,2\r\n3`. -/
theorem c8_inconsistent_aborts_witness :
    (processCSV "1,2\r\n3").output = .error .inconsistentColumns ∧
    (splitFields "1,2").length ≤ (processCSV "1,2\r\n3").outcomes.length ∧
    (processCSV "1,2\r\n3").outcomes.length ≠ 0 :=
  c8_inconsistent_aborts "1,2\r\n3" "1,2" ["3"] (by decide)
    ⟨"3", by decide, by decide⟩

end SpreadsheetEval
